import Mathlib

/-!
Verification development for the traffic-manager-api metrics subsystem.

The Go source is shallowly embedded: Go `time.Time` instants are modelled as
seconds (`Nat` where only nonnegative instants occur, `Int` where signed
arithmetic matters), `time.Time.Format(time.DateOnly)` is modelled by the
calendar-day index `dateOnly` (two instants format to the same day string
exactly when their day indices agree, on a uniform 86400-second day),
`float64` amounts are modelled as exact rationals `ℚ`, Go maps used only
through keyed reads/updates are modelled as total functions with the zero
value as default (Go map reads of absent keys yield the zero value), and Go
maps iterated to build association structures are modelled as association
lists in deterministic order (their iteration order is irrelevant to every
property proved here, except where explicitly noted).
-/

namespace TrafficManager

/-- Seconds per calendar day, as used by `time.DateOnly` grouping. -/
def secondsPerDay : Nat := 86400

/-- Models `t.Format(time.DateOnly)`: two instants produce the same formatted
string exactly when they fall on the same calendar day. -/
def dateOnly (t : Nat) : Nat := t / secondsPerDay

/-- Models Go `math.Round`: rounds half away from zero. -/
def goRound (q : ℚ) : ℤ :=
  if q < 0 then -⌊(1 / 2 : ℚ) - q⌋ else ⌊q + 1 / 2⌋

/-- Models `utils.RoundWithTwoDecimalPlace` (src/pkg/utils): returns 0 for 0,
otherwise `math.Round(f*100)/100`. -/
def round2 (q : ℚ) : ℚ :=
  if q = 0 then 0 else (goRound (q * 100) : ℚ) / 100

/-! ## Data model: ad insights (internal/domain) -/

/-- Models `domain.CampaignInsight`. The Go fields `Clicks`, `Impressions`,
`Reach` hold decimal integer strings (summed via `sumStringInts`) and
`Frequency` a decimal string; they are modelled by the numbers they denote
(the `strconv` parse-failure fallbacks of `sumStringInts` collapse, since in
the model every value is a well-formed number). -/
structure CampaignInsight where
  campaignID : String
  campaignName : String
  clicks : Int
  costPerResult : ℚ
  frequency : ℚ
  impressions : Int
  objective : String
  reach : Int
  result : Int
  spend : ℚ
deriving DecidableEq

/-- Models the per-day `domain.AdAccountMetrics` payload stored inside an
`AdInsightEntry` (Go reuses `AdAccountMetrics` for both the per-day payload
and the combined output; `combineAdMetrics` never reads the by-date maps of
its inputs, so the input payload is modelled without them). -/
structure AdMetrics where
  name : String
  objective : String
  campaigns : List CampaignInsight
  costPerResult : ℚ
  frequency : ℚ
  impressions : Int
  reach : Int
  result : Int
  spend : ℚ
deriving DecidableEq

/-- Models `domain.AdInsightEntry`: one cached day of ad metrics.
`date` is the `time.Time` instant in seconds; `adMetrics` is the possibly-nil
pointer payload. -/
structure AdInsightEntry where
  accountID : String
  externalID : String
  date : Nat
  adMetrics : Option AdMetrics
deriving DecidableEq

/-- The formatted day key of an entry, `insight.Date.Format(time.DateOnly)`. -/
def entryDay (e : AdInsightEntry) : Nat := dateOnly e.date

/-- Models the combined output `domain.AdAccountMetrics` of
`combineAdMetrics`. The Go maps `CostPerResultByDate`/`ResultByDate` are
modelled as total functions from day keys with the zero value as default. -/
structure AdAccountMetrics where
  accountID : String
  name : String
  objective : String
  campaigns : List CampaignInsight
  costPerResult : ℚ
  frequency : ℚ
  impressions : Int
  reach : Int
  result : Int
  spend : ℚ
  costPerResultByDate : Nat → ℚ
  resultByDate : Nat → Int

/-! ## combineAdMetrics (internal/usecases/insighting/interfaces.go 652-748)

The Go accumulation loop updates several independent accumulators per
iteration; each accumulator is embedded as its own fold over the record
list, which computes the same values as the single loop. -/

/-- The impressions contribution of one record in the accumulation loop
(records with nil `AdMetrics` are skipped by `continue`). -/
def entryImpressions (e : AdInsightEntry) : Int :=
  match e.adMetrics with
  | some m => m.impressions
  | none => 0

/-- The reach contribution of one record in the accumulation loop. -/
def entryReach (e : AdInsightEntry) : Int :=
  match e.adMetrics with
  | some m => m.reach
  | none => 0

/-- The result contribution of one record in the accumulation loop. -/
def entryResult (e : AdInsightEntry) : Int :=
  match e.adMetrics with
  | some m => m.result
  | none => 0

/-- The spend contribution of one record in the accumulation loop. The Go
field is a `float64`; the model idealizes it as an exact rational. This is
faithful for a single record's value, but see the caveat on `totalSpend`
for the accumulated sum. -/
def entrySpend (e : AdInsightEntry) : ℚ :=
  match e.adMetrics with
  | some m => m.spend
  | none => 0

/-- `totalImpression += insight.AdMetrics.Impressions` over the loop. -/
def totalImpression (l : List AdInsightEntry) : Int := (l.map entryImpressions).sum

/-- `totalReach += insight.AdMetrics.Reach` over the loop. -/
def totalReach (l : List AdInsightEntry) : Int := (l.map entryReach).sum

/-- `totalResults += insight.AdMetrics.Result` over the loop. -/
def totalResults (l : List AdInsightEntry) : Int := (l.map entryResult).sum

/-- `totalSpend += insight.AdMetrics.Spend` over the loop. The Go
accumulation is `float64` addition in slice order; the model sums exact
rationals, which agrees with one fixed accumulation order up to IEEE-754
rounding but — unlike IEEE-754 addition, which is not associative — is
invariant under reordering. No reordering property of the spend total is
therefore claimed from this model. -/
def totalSpend (l : List AdInsightEntry) : ℚ := (l.map entrySpend).sum

/-- One loop iteration of
`combined.CostPerResultByDate[date] += insight.AdMetrics.CostPerResult`. -/
def cprByDateStep (acc : Nat → ℚ) (e : AdInsightEntry) : Nat → ℚ :=
  match e.adMetrics with
  | none => acc
  | some m => fun d => if d = entryDay e then acc d + m.costPerResult else acc d

/-- One loop iteration of
`combined.ResultByDate[date] += insight.AdMetrics.Result`. -/
def resByDateStep (acc : Nat → Int) (e : AdInsightEntry) : Nat → Int :=
  match e.adMetrics with
  | none => acc
  | some m => fun d => if d = entryDay e then acc d + m.result else acc d

/-- The per-date cost-per-result accumulation over the whole loop. -/
def cprByDateLoop (l : List AdInsightEntry) (acc : Nat → ℚ) : Nat → ℚ :=
  l.foldl cprByDateStep acc

/-- The per-date result accumulation over the whole loop. -/
def resByDateLoop (l : List AdInsightEntry) (acc : Nat → Int) : Nat → Int :=
  l.foldl resByDateStep acc

/-- Models `updateCampaignMetrics`: sums the numeric fields of two campaign
records (string fields via `sumStringInts`, numeric fields directly). -/
def updateCampaignMetrics (existing adding : CampaignInsight) : CampaignInsight :=
  { existing with
    impressions := existing.impressions + adding.impressions
    reach := existing.reach + adding.reach
    clicks := existing.clicks + adding.clicks
    result := existing.result + adding.result
    spend := existing.spend + adding.spend }

/-- Insertion into the `campaignMap` keyed by `CampaignID` (association list
in first-seen order; Go map iteration order is irrelevant here). -/
def addCampaign : List CampaignInsight → CampaignInsight → List CampaignInsight
  | [], c => [c]
  | e :: rest, c =>
    if e.campaignID = c.campaignID then updateCampaignMetrics e c :: rest
    else e :: addCampaign rest c

/-- The campaign-merging part of the accumulation loop. -/
def campaignFold (l : List AdInsightEntry) : List CampaignInsight :=
  l.foldl
    (fun acc e =>
      match e.adMetrics with
      | none => acc
      | some m => m.campaigns.foldl addCampaign acc)
    []

/-- The per-campaign derived-field recomputation after the loop:
cost-per-result = spend/result when result > 0, frequency =
impressions/reach when reach > 0, spend rounded to 2 decimals. -/
def finalizeCampaign (c : CampaignInsight) : CampaignInsight :=
  let c1 :=
    if 0 < c.result then { c with costPerResult := round2 (c.spend / (c.result : ℚ)) }
    else c
  let c2 :=
    if 0 < c1.reach then
      { c1 with frequency := round2 ((c1.impressions : ℚ) / (c1.reach : ℚ)) }
    else c1
  { c2 with spend := round2 c2.spend }

/-- Models `combineAdMetrics`. Returns `none` for the empty list (Go returns
nil). When the first record's `AdMetrics` pointer is nil Go dereferences it
while seeding the by-date maps (a panic); that undefined case is modelled as
`none`. Otherwise: the by-date maps are seeded with the FIRST record's
cost-per-result and result, the loop then accumulates over ALL records
(including the first again), campaigns are merged by ID, and
`calculateDerivedMetrics` fills the totals and the derived
cost-per-result/frequency. -/
def combineAdMetrics : List AdInsightEntry → Option AdAccountMetrics
  | [] => none
  | first :: rest =>
    match first.adMetrics with
    | none => none
    | some m0 =>
      let l := first :: rest
      let seedCpr : Nat → ℚ := fun d => if d = entryDay first then m0.costPerResult else 0
      let seedRes : Nat → Int := fun d => if d = entryDay first then m0.result else 0
      let totImp := totalImpression l
      let totReach := totalReach l
      let totRes := totalResults l
      let totSpend := totalSpend l
      some
        { accountID := first.externalID
          name := m0.name
          objective := m0.objective
          campaigns := (campaignFold l).map finalizeCampaign
          costPerResult := if 0 < totRes then round2 (totSpend / (totRes : ℚ)) else 0
          frequency := if 0 < totReach then round2 ((totImp : ℚ) / (totReach : ℚ)) else 0
          impressions := totImp
          reach := totReach
          result := totRes
          spend := round2 totSpend
          costPerResultByDate := cprByDateLoop l seedCpr
          resultByDate := resByDateLoop l seedRes }

/-- Projections of a defined `combineAdMetrics` result in terms of the loop
totals. -/
theorem combineAdMetrics_fields {l : List AdInsightEntry} {c : AdAccountMetrics}
    (h : combineAdMetrics l = some c) :
    c.impressions = totalImpression l ∧ c.reach = totalReach l ∧
    c.result = totalResults l ∧ c.spend = round2 (totalSpend l) ∧
    c.costPerResult
      = (if 0 < totalResults l then round2 (totalSpend l / (totalResults l : ℚ)) else 0) ∧
    c.frequency
      = (if 0 < totalReach l then round2 ((totalImpression l : ℚ) / (totalReach l : ℚ))
         else 0) := by
  match l with
  | [] => simp [combineAdMetrics] at h
  | first :: rest =>
    cases hm : first.adMetrics with
    | none => simp [combineAdMetrics, hm] at h
    | some m0 =>
      simp only [combineAdMetrics, hm, Option.some.injEq] at h
      subst h
      exact ⟨rfl, rfl, rfl, rfl, rfl, rfl⟩

/-- A concrete two-day ad record (day 1), used by the cache-fill and
double-count witnesses. -/
def c8entryA : AdInsightEntry :=
  { accountID := "acc-1", externalID := "ext-1", date := 86400
    adMetrics := some
      { name := "Store A", objective := "OUTCOME_SALES", campaigns := []
        costPerResult := 5, frequency := 2, impressions := 100, reach := 50
        result := 4, spend := 20 } }

/-- A second concrete ad record (day 2), used by the cache-fill and
double-count witnesses. -/
def c8entryB : AdInsightEntry :=
  { accountID := "acc-1", externalID := "ext-1", date := 172800
    adMetrics := some
      { name := "Store A", objective := "OUTCOME_SALES", campaigns := []
        costPerResult := 3, frequency := 1, impressions := 60, reach := 60
        result := 6, spend := 18 } }

/-- If no record of `l` falls on day `d`, the per-date result accumulation
leaves the value at `d` unchanged. -/
theorem resByDateLoop_no_touch (l : List AdInsightEntry) (acc : Nat → Int) (d : Nat)
    (h : ∀ e ∈ l, entryDay e ≠ d) : resByDateLoop l acc d = acc d := by
  induction l generalizing acc with
  | nil => rfl
  | cons e es ih =>
    have hd : entryDay e ≠ d := h e (by simp)
    have hrest : ∀ x ∈ es, entryDay x ≠ d := fun x hx => h x (by simp [hx])
    show resByDateLoop es (resByDateStep acc e) d = acc d
    rw [ih _ hrest]
    cases hm : e.adMetrics with
    | none => simp [resByDateStep, hm]
    | some m =>
      have hne : ¬ d = entryDay e := fun hdd => hd hdd.symm
      simp [resByDateStep, hm, hne]

/-- If no record of `l` falls on day `d`, the per-date cost-per-result
accumulation leaves the value at `d` unchanged. -/
theorem cprByDateLoop_no_touch (l : List AdInsightEntry) (acc : Nat → ℚ) (d : Nat)
    (h : ∀ e ∈ l, entryDay e ≠ d) : cprByDateLoop l acc d = acc d := by
  induction l generalizing acc with
  | nil => rfl
  | cons e es ih =>
    have hd : entryDay e ≠ d := h e (by simp)
    have hrest : ∀ x ∈ es, entryDay x ≠ d := fun x hx => h x (by simp [hx])
    show cprByDateLoop es (cprByDateStep acc e) d = acc d
    rw [ih _ hrest]
    cases hm : e.adMetrics with
    | none => simp [cprByDateStep, hm]
    | some m =>
      have hne : ¬ d = entryDay e := fun hdd => hd hdd.symm
      simp [cprByDateStep, hm, hne]

/-- C10: `combineAdMetrics` counts the first record twice in its per-date
maps: the maps are seeded with the first record's cost-per-result and result
before the loop, and the loop adds the first record's values again, so when
no other record shares the first record's day the entries at that day equal
double the first record's values. -/
theorem combineAdMetrics_double_counts_first (first : AdInsightEntry)
    (rest : List AdInsightEntry) (m0 : AdMetrics) (hm : first.adMetrics = some m0)
    (hd : ∀ e ∈ rest, entryDay e ≠ entryDay first) :
    (combineAdMetrics (first :: rest)).map (fun c => c.resultByDate (entryDay first))
        = some (2 * m0.result)
    ∧ (combineAdMetrics (first :: rest)).map
          (fun c => c.costPerResultByDate (entryDay first))
        = some (2 * m0.costPerResult) := by
  simp only [combineAdMetrics, hm, Option.map_some']
  constructor
  · have hloop :
        resByDateLoop (first :: rest)
            (fun d => if d = entryDay first then m0.result else 0) (entryDay first)
          = 2 * m0.result := by
      show resByDateLoop rest
          (resByDateStep (fun d => if d = entryDay first then m0.result else 0) first)
          (entryDay first) = 2 * m0.result
      rw [resByDateLoop_no_touch _ _ _ hd]
      simp [resByDateStep, hm, two_mul]
    rw [hloop]
  · have hloop :
        cprByDateLoop (first :: rest)
            (fun d => if d = entryDay first then m0.costPerResult else 0) (entryDay first)
          = 2 * m0.costPerResult := by
      show cprByDateLoop rest
          (cprByDateStep (fun d => if d = entryDay first then m0.costPerResult else 0) first)
          (entryDay first) = 2 * m0.costPerResult
      rw [cprByDateLoop_no_touch _ _ _ hd]
      simp [cprByDateStep, hm, two_mul]
    rw [hloop]

/-- Witness for C10: the double count evaluated at a concrete pair of records
on distinct days. -/
theorem combineAdMetrics_double_counts_first_witness :
    (combineAdMetrics [c8entryA, c8entryB]).map (fun c => c.resultByDate (entryDay c8entryA))
        = some (2 * 4)
    ∧ (combineAdMetrics [c8entryA, c8entryB]).map
          (fun c => c.costPerResultByDate (entryDay c8entryA))
        = some (2 * 5) :=
  combineAdMetrics_double_counts_first c8entryA [c8entryB]
    { name := "Store A", objective := "OUTCOME_SALES", campaigns := []
      costPerResult := 5, frequency := 2, impressions := 100, reach := 50
      result := 4, spend := 20 }
    rfl (by decide)

/-! ## Data model: sales insights (internal/domain, ssotica domain) -/

/-- Models `domain.Sale`: one sales line item. -/
structure SaleEntry where
  date : Option Nat
  netAmount : ℚ
deriving DecidableEq

/-- Models `domain.SalesMetrics`: the per-origin sales aggregate. -/
structure SalesMetricsVal where
  totalRevenue : ℚ
  salesQuantity : Int
  averageTicket : ℚ
  sales : List SaleEntry
deriving DecidableEq

/-- Models `domain.SalesInsightEntry`: one cached day of sales metrics.
The Go `map[string]*SalesMetrics` keyed by origin is modelled as an
association list (nil-valued origins are not represented). -/
structure SalesInsightEntry where
  accountID : String
  date : Nat
  salesMetrics : List (String × SalesMetricsVal)
deriving DecidableEq

/-! ## Cache fill (interfaces.go 229-364 getAdMetricsWithCache and
372-502 getSalesMetricsWithCache)

Missing dates are fetched by a pool of goroutines (bounded by a semaphore of
5) that append to the shared result slice under a mutex, so the completion
order of fetch tasks is scheduler-dependent; the loop is modelled
sequentially in missing-date order. The properties proved below do not
depend on that order. `time.Now()` is re-read inside each task; the model
uses a single `now` instant for the run. Repository and API outcomes are
inputs of the model: `cached` is the `GetByDateRange` result (a query error
is logged and treated as an empty result), `fetch d` is the per-date
external call outcome (`none` covers a fetch error, which skips the date). -/

/-- The observable outcome of one cache-fill call: the in-memory list that
is returned, the dates for which the external API was called, and the
entries passed to `SaveOrUpdate`. -/
structure AdCacheFill where
  result : List AdInsightEntry
  fetched : List Nat
  saved : List AdInsightEntry
deriving DecidableEq

/-- One fetch task of `getAdMetricsWithCache`: call the Meta API for the
date; on error skip; on success build the entry, persist it unless the date
formats to the same day as `time.Now()`, and append it to the shared result
slice. -/
def adFetchStep (accountID externalID : String) (fetch : Nat → Option AdMetrics)
    (now : Nat) (acc : AdCacheFill) (d : Nat) : AdCacheFill :=
  match fetch d with
  | none => { acc with fetched := acc.fetched ++ [d] }
  | some m =>
    let entry : AdInsightEntry :=
      { accountID := accountID, externalID := externalID, date := d, adMetrics := some m }
    { result := acc.result ++ [entry]
      fetched := acc.fetched ++ [d]
      saved := if dateOnly d ≠ dateOnly now then acc.saved ++ [entry] else acc.saved }

/-- The fetch loop over the missing dates. -/
def adFetchLoop (accountID externalID : String) (fetch : Nat → Option AdMetrics)
    (now : Nat) : List Nat → AdCacheFill → AdCacheFill
  | [], acc => acc
  | d :: ds, acc =>
    adFetchLoop accountID externalID fetch now ds
      (adFetchStep accountID externalID fetch now acc d)

/-- The missing-date computation of `getAdMetricsWithCache`: the requested
days whose formatted day is not among the formatted days of the cached
entries. -/
def adMissingDates (cached : List AdInsightEntry) (allDates : List Nat) : List Nat :=
  allDates.filter (fun d => !((cached.map entryDay).contains (dateOnly d)))

/-- Models `getAdMetricsWithCache`: collect the cached entries for the
range, mark their formatted days as existing, compute the missing dates as
the requested days whose formatted day is not covered, and fetch the
missing dates (the `len(missingAdDates) > 0` guard skips the fetch block
when nothing is missing). -/
def getAdMetricsWithCache (accountID externalID : String)
    (cached : List AdInsightEntry) (fetch : Nat → Option AdMetrics)
    (allDates : List Nat) (now : Nat) : AdCacheFill :=
  let missing := adMissingDates cached allDates
  let base : AdCacheFill := { result := cached, fetched := [], saved := [] }
  if missing.isEmpty then base
  else adFetchLoop accountID externalID fetch now missing base

/-- The observable outcome of one sales cache-fill call. -/
structure SalesCacheFill where
  result : List SalesInsightEntry
  fetched : List Nat
  saved : List SalesInsightEntry
deriving DecidableEq

/-- One fetch task of `getSalesMetricsWithCache`: call the SSOtica API for
the date; on error or on a nil/empty metrics map skip; otherwise build the
entry, persist it unless the date formats to the same day as `time.Now()`,
and append it to the shared result slice. -/
def salesFetchStep (accountID : String)
    (fetch : Nat → Option (List (String × SalesMetricsVal))) (now : Nat)
    (acc : SalesCacheFill) (d : Nat) : SalesCacheFill :=
  match fetch d with
  | none => { acc with fetched := acc.fetched ++ [d] }
  | some ms =>
    if ms.isEmpty then { acc with fetched := acc.fetched ++ [d] }
    else
      let entry : SalesInsightEntry :=
        { accountID := accountID, date := d, salesMetrics := ms }
      { result := acc.result ++ [entry]
        fetched := acc.fetched ++ [d]
        saved := if dateOnly d ≠ dateOnly now then acc.saved ++ [entry] else acc.saved }

/-- The sales fetch loop over the missing dates. -/
def salesFetchLoop (accountID : String)
    (fetch : Nat → Option (List (String × SalesMetricsVal))) (now : Nat) :
    List Nat → SalesCacheFill → SalesCacheFill
  | [], acc => acc
  | d :: ds, acc =>
    salesFetchLoop accountID fetch now ds (salesFetchStep accountID fetch now acc d)

/-- A non-nil, non-empty optional string, as in the Go guards
`account.CNPJ != nil && *account.CNPJ != ""`. -/
def presentStr : Option String → Bool
  | some s => !(s == "")
  | none => false

/-- The missing-date computation of `getSalesMetricsWithCache`. -/
def salesMissingDates (cached : List SalesInsightEntry) (allDates : List Nat) : List Nat :=
  allDates.filter (fun d => !((cached.map (fun e => dateOnly e.date)).contains (dateOnly d)))

/-- Models `getSalesMetricsWithCache`: like the ad variant, but the fetch
block additionally requires a present CNPJ and secret name. -/
def getSalesMetricsWithCache (accountID : String) (cnpj secretName : Option String)
    (cached : List SalesInsightEntry)
    (fetch : Nat → Option (List (String × SalesMetricsVal)))
    (allDates : List Nat) (now : Nat) : SalesCacheFill :=
  let missing := salesMissingDates cached allDates
  let base : SalesCacheFill := { result := cached, fetched := [], saved := [] }
  if !missing.isEmpty && presentStr cnpj && presentStr secretName then
    salesFetchLoop accountID fetch now missing base
  else base

/-- A single fetch task never saves an entry for the current day: anything in
the saved list after one step was already saved or is dated on a different
day than `now`. -/
theorem adFetchStep_saved (accountID externalID : String) (fetch : Nat → Option AdMetrics)
    (now : Nat) (acc : AdCacheFill) (d : Nat) (e : AdInsightEntry)
    (he : e ∈ (adFetchStep accountID externalID fetch now acc d).saved) :
    e ∈ acc.saved ∨ dateOnly e.date ≠ dateOnly now := by
  cases hf : fetch d with
  | none =>
    simp only [adFetchStep, hf] at he
    exact Or.inl he
  | some m =>
    simp only [adFetchStep, hf] at he
    split at he
    · rcases List.mem_append.mp he with h | h
      · exact Or.inl h
      · rcases List.mem_singleton.mp h with rfl
        rename_i hd
        exact Or.inr hd
    · exact Or.inl he

/-- Saved entries of the whole ad fetch loop: already saved or not today. -/
theorem adFetchLoop_saved (accountID externalID : String) (fetch : Nat → Option AdMetrics)
    (now : Nat) (e : AdInsightEntry) :
    ∀ (ds : List Nat) (acc : AdCacheFill),
      e ∈ (adFetchLoop accountID externalID fetch now ds acc).saved →
      e ∈ acc.saved ∨ dateOnly e.date ≠ dateOnly now := by
  intro ds
  induction ds with
  | nil => exact fun acc he => Or.inl he
  | cons d rest ih =>
    intro acc he
    rcases ih (adFetchStep accountID externalID fetch now acc d) he with hmem | hne
    · exact adFetchStep_saved accountID externalID fetch now acc d e hmem
    · exact Or.inr hne

/-- The ad fetch loop only appends to the shared result slice. -/
theorem adFetchLoop_result_mono (accountID externalID : String)
    (fetch : Nat → Option AdMetrics) (now : Nat) (e : AdInsightEntry) :
    ∀ (ds : List Nat) (acc : AdCacheFill),
      e ∈ acc.result → e ∈ (adFetchLoop accountID externalID fetch now ds acc).result := by
  intro ds
  induction ds with
  | nil => exact fun acc he => he
  | cons d rest ih =>
    intro acc he
    refine ih (adFetchStep accountID externalID fetch now acc d) ?_
    cases hf : fetch d with
    | none => simp only [adFetchStep, hf]; exact he
    | some m => simp only [adFetchStep, hf]; exact List.mem_append_left _ he

/-- Every missing date whose fetch succeeds contributes its entry to the
in-memory result, regardless of whether it was persisted. -/
theorem adFetchLoop_result_mem (accountID externalID : String)
    (fetch : Nat → Option AdMetrics) (now : Nat) (d : Nat) (m : AdMetrics)
    (hf : fetch d = some m) :
    ∀ (ds : List Nat) (acc : AdCacheFill), d ∈ ds →
      ({ accountID := accountID, externalID := externalID, date := d,
         adMetrics := some m } : AdInsightEntry)
        ∈ (adFetchLoop accountID externalID fetch now ds acc).result := by
  intro ds
  induction ds with
  | nil => exact fun acc hd => absurd hd (List.not_mem_nil d)
  | cons d0 rest ih =>
    intro acc hd
    rcases List.mem_cons.mp hd with rfl | hmem
    · show _ ∈ (adFetchLoop accountID externalID fetch now rest
        (adFetchStep accountID externalID fetch now acc d)).result
      apply adFetchLoop_result_mono
      simp only [adFetchStep, hf]
      exact List.mem_append_right _ (List.mem_singleton.mpr rfl)
    · exact ih (adFetchStep accountID externalID fetch now acc d0) hmem

/-- Sales analogue of `adFetchStep_saved`. -/
theorem salesFetchStep_saved (accountID : String)
    (fetch : Nat → Option (List (String × SalesMetricsVal))) (now : Nat)
    (acc : SalesCacheFill) (d : Nat) (e : SalesInsightEntry)
    (he : e ∈ (salesFetchStep accountID fetch now acc d).saved) :
    e ∈ acc.saved ∨ dateOnly e.date ≠ dateOnly now := by
  cases hf : fetch d with
  | none =>
    simp only [salesFetchStep, hf] at he
    exact Or.inl he
  | some ms =>
    simp only [salesFetchStep, hf] at he
    split at he
    · exact Or.inl he
    · split at he
      · rcases List.mem_append.mp he with h | h
        · exact Or.inl h
        · rcases List.mem_singleton.mp h with rfl
          rename_i hd
          exact Or.inr hd
      · exact Or.inl he

/-- Sales analogue of `adFetchLoop_saved`. -/
theorem salesFetchLoop_saved (accountID : String)
    (fetch : Nat → Option (List (String × SalesMetricsVal))) (now : Nat)
    (e : SalesInsightEntry) :
    ∀ (ds : List Nat) (acc : SalesCacheFill),
      e ∈ (salesFetchLoop accountID fetch now ds acc).saved →
      e ∈ acc.saved ∨ dateOnly e.date ≠ dateOnly now := by
  intro ds
  induction ds with
  | nil => exact fun acc he => Or.inl he
  | cons d rest ih =>
    intro acc he
    rcases ih (salesFetchStep accountID fetch now acc d) he with hmem | hne
    · exact salesFetchStep_saved accountID fetch now acc d e hmem
    · exact Or.inr hne

/-- Sales analogue of `adFetchLoop_result_mono`. -/
theorem salesFetchLoop_result_mono (accountID : String)
    (fetch : Nat → Option (List (String × SalesMetricsVal))) (now : Nat)
    (e : SalesInsightEntry) :
    ∀ (ds : List Nat) (acc : SalesCacheFill),
      e ∈ acc.result → e ∈ (salesFetchLoop accountID fetch now ds acc).result := by
  intro ds
  induction ds with
  | nil => exact fun acc he => he
  | cons d rest ih =>
    intro acc he
    refine ih (salesFetchStep accountID fetch now acc d) ?_
    cases hf : fetch d with
    | none => simp only [salesFetchStep, hf]; exact he
    | some ms =>
      simp only [salesFetchStep, hf]
      split
      · exact he
      · exact List.mem_append_left _ he

/-- Sales analogue of `adFetchLoop_result_mem`. -/
theorem salesFetchLoop_result_mem (accountID : String)
    (fetch : Nat → Option (List (String × SalesMetricsVal))) (now : Nat)
    (d : Nat) (ms : List (String × SalesMetricsVal)) (hf : fetch d = some ms)
    (hne : ms.isEmpty = false) :
    ∀ (ds : List Nat) (acc : SalesCacheFill), d ∈ ds →
      ({ accountID := accountID, date := d, salesMetrics := ms } : SalesInsightEntry)
        ∈ (salesFetchLoop accountID fetch now ds acc).result := by
  intro ds
  induction ds with
  | nil => exact fun acc hd => absurd hd (List.not_mem_nil d)
  | cons d0 rest ih =>
    intro acc hd
    rcases List.mem_cons.mp hd with rfl | hmem
    · show _ ∈ (salesFetchLoop accountID fetch now rest
        (salesFetchStep accountID fetch now acc d)).result
      apply salesFetchLoop_result_mono
      simp only [salesFetchStep, hf, hne]
      exact List.mem_append_right _ (List.mem_singleton.mpr rfl)
    · exact ih (salesFetchStep accountID fetch now acc d0) hmem

/-- Normalization of an instant to midnight of its day, as in
`time.Date(y, m, d, 0, 0, 0, 0, loc)`. -/
def normalizeMidnight (t : Nat) : Nat := (t / secondsPerDay) * secondsPerDay

/-- The list of `n` consecutive midnights starting at `cur` (the
`currentDate = currentDate.AddDate(0, 0, 1)` loop). -/
def daysFrom (cur : Nat) : Nat → List Nat
  | 0 => []
  | n + 1 => cur :: daysFrom (cur + secondsPerDay) n

/-- Models `generateDateRange`: nil inputs or a start after the end give the
empty list; otherwise both bounds are normalized to midnight and every day
from the first through the last (inclusive) is listed. -/
def generateDateRange : Option Nat → Option Nat → List Nat
  | some s, some e =>
    if e < s then []
    else daysFrom (normalizeMidnight s)
      ((normalizeMidnight e - normalizeMidnight s) / secondsPerDay + 1)
  | some _, none => []
  | none, _ => []

/-- C1: a cache-fill run never persists a record for the current day.
`SaveOrUpdate` is invoked (the entry appears in `saved`) only for dates that
format to a different day than `time.Now()`, in both the ad and the sales
cache fill; the today-record is nevertheless appended to the in-memory
result whenever its fetch succeeds (for sales: succeeds with a non-empty
metrics map and the account has CNPJ and secret configured). -/
theorem cacheFill_never_persists_today (accountID externalID : String)
    (cnpj secretName : Option String) (cachedA : List AdInsightEntry)
    (fetchA : Nat → Option AdMetrics) (cachedS : List SalesInsightEntry)
    (fetchS : Nat → Option (List (String × SalesMetricsVal)))
    (allDates : List Nat) (now : Nat) :
    (∀ e ∈ (getAdMetricsWithCache accountID externalID cachedA fetchA allDates now).saved,
        dateOnly e.date ≠ dateOnly now)
    ∧ (∀ d m, d ∈ allDates →
        (cachedA.map entryDay).contains (dateOnly d) = false →
        fetchA d = some m →
        ({ accountID := accountID, externalID := externalID, date := d,
           adMetrics := some m } : AdInsightEntry)
          ∈ (getAdMetricsWithCache accountID externalID cachedA fetchA allDates now).result)
    ∧ (∀ e ∈ (getSalesMetricsWithCache accountID cnpj secretName cachedS fetchS
          allDates now).saved,
        dateOnly e.date ≠ dateOnly now)
    ∧ (∀ d ms, d ∈ allDates →
        (cachedS.map (fun x => dateOnly x.date)).contains (dateOnly d) = false →
        fetchS d = some ms → ms.isEmpty = false →
        presentStr cnpj = true → presentStr secretName = true →
        ({ accountID := accountID, date := d, salesMetrics := ms } : SalesInsightEntry)
          ∈ (getSalesMetricsWithCache accountID cnpj secretName cachedS fetchS
              allDates now).result) := by
  refine ⟨?_, ?_, ?_, ?_⟩
  · intro e he
    cases hm : (adMissingDates cachedA allDates).isEmpty with
    | true =>
      simp only [getAdMetricsWithCache, hm, if_true] at he
      simp at he
    | false =>
      simp only [getAdMetricsWithCache, hm, Bool.false_eq_true, if_false] at he
      rcases adFetchLoop_saved accountID externalID fetchA now e _ _ he with h | h
      · simp at h
      · exact h
  · intro d m hd hcon hf
    have hdm : d ∈ adMissingDates cachedA allDates :=
      List.mem_filter.mpr ⟨hd, by rw [hcon]; rfl⟩
    have hm : (adMissingDates cachedA allDates).isEmpty = false := by
      simpa using List.ne_nil_of_mem hdm
    simp only [getAdMetricsWithCache, hm, Bool.false_eq_true, if_false]
    exact adFetchLoop_result_mem accountID externalID fetchA now d m hf _ _ hdm
  · intro e he
    cases hguard : (!(salesMissingDates cachedS allDates).isEmpty
        && presentStr cnpj && presentStr secretName) with
    | false =>
      simp only [getSalesMetricsWithCache, hguard, Bool.false_eq_true, if_false] at he
      simp at he
    | true =>
      simp only [getSalesMetricsWithCache, hguard, if_true] at he
      rcases salesFetchLoop_saved accountID fetchS now e _ _ he with h | h
      · simp at h
      · exact h
  · intro d ms hd hcon hf hne hc hs
    have hdm : d ∈ salesMissingDates cachedS allDates :=
      List.mem_filter.mpr ⟨hd, by rw [hcon]; rfl⟩
    have hm : (salesMissingDates cachedS allDates).isEmpty = false := by
      simpa using List.ne_nil_of_mem hdm
    have hguard : (!(salesMissingDates cachedS allDates).isEmpty
        && presentStr cnpj && presentStr secretName) = true := by
      simp [hm, hc, hs]
    simp only [getSalesMetricsWithCache, hguard, if_true]
    exact salesFetchLoop_result_mem accountID fetchS now d ms hf hne _ _ hdm

/-- A concrete sales payload used by the cache-fill witnesses. -/
def c1salesPayload : List (String × SalesMetricsVal) :=
  [("SocialNetwork",
    { totalRevenue := 100, salesQuantity := 2, averageTicket := 50, sales := [] })]

/-- Witness for C1: a run over yesterday and today (now = second 180000 of
day 2), with yesterday already cached. Today is fetched, appears in the
returned result, yet the saved list holds nothing dated today. -/
theorem cacheFill_never_persists_today_witness :
    (({ accountID := "acc-1", externalID := "ext-1", date := 172800,
        adMetrics := some
          { name := "Store A", objective := "OUTCOME_SALES", campaigns := []
            costPerResult := 5, frequency := 2, impressions := 100, reach := 50
            result := 4, spend := 20 } } : AdInsightEntry)
      ∈ (getAdMetricsWithCache "acc-1" "ext-1" [c8entryA]
          (fun _ => some
            { name := "Store A", objective := "OUTCOME_SALES", campaigns := []
              costPerResult := 5, frequency := 2, impressions := 100, reach := 50
              result := 4, spend := 20 })
          [86400, 172800] 180000).result)
    ∧ (getAdMetricsWithCache "acc-1" "ext-1" [c8entryA]
        (fun _ => some
          { name := "Store A", objective := "OUTCOME_SALES", campaigns := []
            costPerResult := 5, frequency := 2, impressions := 100, reach := 50
            result := 4, spend := 20 })
        [86400, 172800] 180000).saved = []
    ∧ (({ accountID := "acc-1", date := 172800,
          salesMetrics := c1salesPayload } : SalesInsightEntry)
        ∈ (getSalesMetricsWithCache "acc-1" (some "123") (some "secret") []
            (fun _ => some c1salesPayload) [86400, 172800] 180000).result) := by
  refine ⟨?_, by decide, ?_⟩
  · exact (cacheFill_never_persists_today "acc-1" "ext-1" (some "123") (some "secret")
      [c8entryA]
      (fun _ => some
        { name := "Store A", objective := "OUTCOME_SALES", campaigns := []
          costPerResult := 5, frequency := 2, impressions := 100, reach := 50
          result := 4, spend := 20 })
      [] (fun _ => some c1salesPayload) [86400, 172800] 180000).2.1
      172800 _ (by decide) (by decide) rfl
  · exact (cacheFill_never_persists_today "acc-1" "ext-1" (some "123") (some "secret")
      [c8entryA]
      (fun _ => some
        { name := "Store A", objective := "OUTCOME_SALES", campaigns := []
          costPerResult := 5, frequency := 2, impressions := 100, reach := 50
          result := 4, spend := 20 })
      [] (fun _ => some c1salesPayload) [86400, 172800] 180000).2.2.2
      172800 c1salesPayload (by decide) (by decide) rfl (by decide) (by decide) (by decide)

/-- C6: a cache-fill call on a range every calendar day of which is already
covered by a cached record issues zero external fetches: the missing-date
list is empty, so no fetch task runs and the result is exactly the cached
records, for both the ad and the sales fill. -/
theorem cacheFill_idempotent_on_covered_range (accountID externalID : String)
    (cnpj secretName : Option String) (cachedA : List AdInsightEntry)
    (fetchA : Nat → Option AdMetrics) (cachedS : List SalesInsightEntry)
    (fetchS : Nat → Option (List (String × SalesMetricsVal))) (s e now : Nat)
    (hcovA : ∀ d ∈ generateDateRange (some s) (some e),
      (cachedA.map entryDay).contains (dateOnly d) = true)
    (hcovS : ∀ d ∈ generateDateRange (some s) (some e),
      (cachedS.map (fun x => dateOnly x.date)).contains (dateOnly d) = true) :
    getAdMetricsWithCache accountID externalID cachedA fetchA
        (generateDateRange (some s) (some e)) now
      = { result := cachedA, fetched := [], saved := [] }
    ∧ getSalesMetricsWithCache accountID cnpj secretName cachedS fetchS
        (generateDateRange (some s) (some e)) now
      = { result := cachedS, fetched := [], saved := [] } := by
  have hmA : adMissingDates cachedA (generateDateRange (some s) (some e)) = [] := by
    refine List.filter_eq_nil_iff.mpr ?_
    intro d hd
    rw [hcovA d hd]
    simp
  have hmS : salesMissingDates cachedS (generateDateRange (some s) (some e)) = [] := by
    refine List.filter_eq_nil_iff.mpr ?_
    intro d hd
    rw [hcovS d hd]
    simp
  constructor
  · simp [getAdMetricsWithCache, hmA]
  · simp [getSalesMetricsWithCache, hmS]

/-- A cached sales entry used by the C6 witness. -/
def c6salesCached : SalesInsightEntry :=
  { accountID := "acc-1", date := 86400, salesMetrics := c1salesPayload }

/-- Witness for C6: a one-day range (day 1) already covered by cached ad and
sales entries yields no fetches and returns exactly the cached records. -/
theorem cacheFill_idempotent_on_covered_range_witness :
    getAdMetricsWithCache "acc-1" "ext-1" [c8entryA] (fun _ => none)
        (generateDateRange (some 90000) (some 90000)) 180000
      = { result := [c8entryA], fetched := [], saved := [] }
    ∧ getSalesMetricsWithCache "acc-1" (some "123") (some "secret") [c6salesCached]
        (fun _ => none) (generateDateRange (some 90000) (some 90000)) 180000
      = { result := [c6salesCached], fetched := [], saved := [] } :=
  cacheFill_idempotent_on_covered_range "acc-1" "ext-1" (some "123") (some "secret")
    [c8entryA] (fun _ => none) [c6salesCached] (fun _ => none) 90000 90000 180000
    (by decide) (by decide)

/-! ## Ranking engine (internal/scheduler/top_ranking_accounts.go)

`processTopRankingAccountsWithDate` builds, per eligible account, a fresh
ranking row for yesterday's month (position, positionChange and
previousPosition all zero) whose revenue is the sum of the month-to-date
social-network sales, collects the previously persisted rows into a map
keyed by account ID, then calls `updatePositions` and persists the result in
one batch upsert. Rows arrive over channels in scheduler-dependent order;
the model uses the account-list order (every property proved about
`updatePositions` below is stated relative to its own input order). -/

/-- Models `domain.StoreRankingItem` (the fields the ranking engine reads
and writes). -/
structure StoreRankingItem where
  accountID : String
  month : String
  storeName : String
  socialNetworkRevenue : ℚ
  position : Int
  positionChange : Int
  previousPosition : Int
deriving DecidableEq

/-- The descending-revenue comparison used to order rows: `a` may come
before `b` when `b`'s revenue is at most `a`'s. -/
def revGE (a b : StoreRankingItem) : Prop :=
  b.socialNetworkRevenue ≤ a.socialNetworkRevenue

instance : DecidableRel revGE := fun a b =>
  inferInstanceAs (Decidable (b.socialNetworkRevenue ≤ a.socialNetworkRevenue))

instance : IsTotal StoreRankingItem revGE :=
  ⟨fun a b => (le_total b.socialNetworkRevenue a.socialNetworkRevenue).imp id id⟩

instance : IsTrans StoreRankingItem revGE :=
  ⟨fun _ _ _ hab hbc => le_trans hbc hab⟩

/-- The contract of `sort.Slice(updatedRankings, func(i, j) rev[i] > rev[j])`
(top_ranking_accounts.go 440-442): the result is a permutation of the input
that is descending under the comparator. `sort.Slice` is documented as not
guaranteed to be stable, so this relation — not any particular ordering —
is all the program guarantees about the sorted slice; the tie order among
equal-revenue rows is unspecified. -/
def sortSliceSpec (input out : List StoreRankingItem) : Prop :=
  out.Perm input ∧ out.Pairwise revGE

/-- One admissible execution of the `sort.Slice` call: the stable
descending insertion sort. It satisfies the contract
(`sortByRevenueDesc_spec`); Go's implementation (pdqsort) coincides with it
for slices of length at most 12 but may realize a different tie order for
longer slices. The functional pipeline below fixes this admissible
ordering; every property proved through it is insensitive to which
admissible tie order the implementation realizes, and tie-order-sensitive
statements are settled against the relation `updatePositionsRel`. -/
def sortByRevenueDesc (l : List StoreRankingItem) : List StoreRankingItem :=
  List.insertionSort revGE l

/-- The body of the position-assignment loop of `updatePositions` for index
`i`: set `Position = i+1`, and when a previously persisted row exists for
the account, set `PositionChange = priorPosition - newPosition` and
`PreviousPosition = priorPosition`. -/
def updateRow (before : List (String × StoreRankingItem)) (i : Nat)
    (r : StoreRankingItem) : StoreRankingItem :=
  let r1 := { r with position := (i : Int) + 1 }
  match before.lookup r.accountID with
  | some b =>
    { r1 with positionChange := b.position - ((i : Int) + 1), previousPosition := b.position }
  | none => r1

/-- The position-assignment loop over the sorted rows, starting at index
`i`. -/
def assignPositions (before : List (String × StoreRankingItem)) :
    Nat → List StoreRankingItem → List StoreRankingItem
  | _, [] => []
  | i, r :: rs => updateRow before i r :: assignPositions before (i + 1) rs

/-- Models `updatePositions` (top_ranking_accounts.go 436-454): sort
descending by revenue, then assign `Position = index+1` and the deltas
against the previously persisted rows (`rankingsBeforeUpdate`, modelled as
an association list keyed by account ID). -/
def updatePositions (updated : List StoreRankingItem)
    (before : List (String × StoreRankingItem)) : List StoreRankingItem :=
  assignPositions before 0 (sortByRevenueDesc updated)

/-- Models `updatePositions` as the program guarantees it: the rows are
reordered by some `sort.Slice`-compliant ordering (tie order unspecified),
then positions and deltas are assigned; `out` is a possible output exactly
when some compliant ordering produces it. -/
def updatePositionsRel (updated : List StoreRankingItem)
    (before : List (String × StoreRankingItem)) (out : List StoreRankingItem) : Prop :=
  ∃ s, sortSliceSpec updated s ∧ out = assignPositions before 0 s

/-- Models `ssoticadomain.Order` (the fields the ranking engine reads). -/
structure Order where
  netAmount : ℚ
  customerOrigins : List String
deriving DecidableEq

/-- Models `ssoticadomain.SocialNetworkOrigins`. -/
def SocialNetworkOrigins : List String :=
  ["Redes Sociais", "Tráfego Pago", "Rede Social", "Redes Sociais / Trafego Pago",
   "Redes Sociais / Trafego Pago", "Trafego Pago", "Redes Sociais / Trafego",
   "Redes Socias", "Rede Social - Eclel", "Rede Social - Bruna"]

/-- A sale counts towards the social-network revenue when it has at least
one customer origin and the first one is in `SocialNetworkOrigins`. -/
def socialNetworkSale (sale : Order) : Bool :=
  match sale.customerOrigins with
  | [] => false
  | o :: _ => SocialNetworkOrigins.contains o

/-- Models `GetSumNetAmountSocialNetwork`: sum of the net amounts of the
social-network sales. -/
def getSumNetAmountSocialNetwork (s : List Order) : ℚ :=
  (s.map (fun sale => if socialNetworkSale sale then sale.netAmount else 0)).sum

/-- An eligible account as the ranking engine sees it (the CNPJ/secret
eligibility filter of `getActiveAccounts` has already been applied). -/
structure AdAccountRef where
  id : String
  name : String
deriving DecidableEq

/-- The fresh ranking row built per account inside
`processTopRankingAccountsWithDate`: month = yesterday's `"01-2006"` key,
revenue = month-to-date social-network sales, position fields zeroed. -/
def buildRankingRow (month : String) (account : AdAccountRef) (revenue : ℚ) :
    StoreRankingItem :=
  { accountID := account.id, month := month, storeName := account.name
    socialNetworkRevenue := revenue, position := 0, positionChange := 0
    previousPosition := 0 }

/-- Models `processTopRankingAccountsWithDate` at the level of one run:
build the fresh rows from each account's month-to-date sales, then rank
them against the previously persisted rows. `salesOf` gives the sales the
SSOtica API returns per account; `priorOf` is the `rankingsBeforeUpdate`
map (only non-nil lookups are present). The returned list is what is passed
to the batch `SaveOrUpdateStoreRanking`. -/
def processTopRankingWithDate (accounts : List AdAccountRef)
    (salesOf : String → List Order) (priorOf : List (String × StoreRankingItem))
    (month : String) : List StoreRankingItem :=
  updatePositions
    (accounts.map (fun a => buildRankingRow month a (getSumNetAmountSocialNetwork (salesOf a.id))))
    priorOf

/-- `updateRow` never changes the account ID. -/
theorem updateRow_accountID (before : List (String × StoreRankingItem)) (i : Nat)
    (r : StoreRankingItem) : (updateRow before i r).accountID = r.accountID := by
  cases h : before.lookup r.accountID <;> simp [updateRow, h]

/-- `updateRow` never changes the revenue. -/
theorem updateRow_revenue (before : List (String × StoreRankingItem)) (i : Nat)
    (r : StoreRankingItem) :
    (updateRow before i r).socialNetworkRevenue = r.socialNetworkRevenue := by
  cases h : before.lookup r.accountID <;> simp [updateRow, h]

/-- `updateRow` assigns position `i + 1`. -/
theorem updateRow_position (before : List (String × StoreRankingItem)) (i : Nat)
    (r : StoreRankingItem) : (updateRow before i r).position = (i : Int) + 1 := by
  cases h : before.lookup r.accountID <;> simp [updateRow, h]

/-- Every output row of the assignment loop is an updated input row. -/
theorem mem_assignPositions (before : List (String × StoreRankingItem)) :
    ∀ (i : Nat) (l : List StoreRankingItem) (x : StoreRankingItem),
      x ∈ assignPositions before i l → ∃ j r, r ∈ l ∧ x = updateRow before j r := by
  intro i l
  induction l generalizing i with
  | nil => intro x hx; cases hx
  | cons r rs ih =>
    intro x hx
    rcases List.mem_cons.mp hx with rfl | hmem
    · exact ⟨i, r, List.mem_cons_self r rs, rfl⟩
    · rcases ih (i + 1) x hmem with ⟨j, r0, hr0, hx0⟩
      exact ⟨j, r0, List.mem_cons_of_mem r hr0, hx0⟩

/-- The positions assigned by the loop starting at index `i` are the
consecutive integers `i+1, i+2, ...`. -/
theorem assignPositions_map_position (before : List (String × StoreRankingItem)) :
    ∀ (l : List StoreRankingItem) (i : Nat),
      (assignPositions before i l).map (fun r => r.position)
        = (List.range' (i + 1) l.length).map (fun n => (n : Int)) := by
  intro l
  induction l with
  | nil => intro i; rfl
  | cons r rs ih =>
    intro i
    show (updateRow before i r).position ::
        (assignPositions before (i + 1) rs).map (fun r => r.position) = _
    rw [updateRow_position, ih (i + 1), List.length_cons, List.range'_succ]
    simp

/-- The assignment loop preserves the account-ID sequence. -/
theorem assignPositions_map_accountID (before : List (String × StoreRankingItem)) :
    ∀ (l : List StoreRankingItem) (i : Nat),
      (assignPositions before i l).map (fun r => r.accountID)
        = l.map (fun r => r.accountID) := by
  intro l
  induction l with
  | nil => intro i; rfl
  | cons r rs ih =>
    intro i
    show (updateRow before i r).accountID ::
        (assignPositions before (i + 1) rs).map (fun r => r.accountID) = _
    rw [updateRow_accountID, ih (i + 1)]
    rfl

/-- The assignment loop preserves descending revenue order. -/
theorem assignPositions_pairwise (before : List (String × StoreRankingItem)) :
    ∀ (l : List StoreRankingItem) (i : Nat), l.Pairwise revGE →
      (assignPositions before i l).Pairwise revGE := by
  intro l
  induction l with
  | nil => intro i _; exact List.Pairwise.nil
  | cons r rs ih =>
    intro i hp
    rcases List.pairwise_cons.mp hp with ⟨hr, hrs⟩
    refine List.pairwise_cons.mpr ⟨?_, ih (i + 1) hrs⟩
    intro x hx
    rcases mem_assignPositions before (i + 1) rs x hx with ⟨j, r0, hr0, rfl⟩
    show revGE (updateRow before i r) (updateRow before j r0)
    unfold revGE
    rw [updateRow_revenue, updateRow_revenue]
    exact hr r0 hr0

/-- The stable insertion sort satisfies the `sort.Slice` contract. -/
theorem sortByRevenueDesc_spec (l : List StoreRankingItem) :
    sortSliceSpec l (sortByRevenueDesc l) :=
  ⟨List.perm_insertionSort revGE l, List.sorted_insertionSort revGE l⟩

/-- The functional pipeline realizes one of the behaviours admitted by the
relational model. -/
theorem updatePositions_refines (l : List StoreRankingItem)
    (before : List (String × StoreRankingItem)) :
    updatePositionsRel l before (updatePositions l before) :=
  ⟨sortByRevenueDesc l, sortByRevenueDesc_spec l, rfl⟩

/-- A fresh ranking row with only the identifying fields set. -/
def c5row (id : String) (rev : ℚ) : StoreRankingItem :=
  { accountID := id, month := "01-2024", storeName := id
    socialNetworkRevenue := rev, position := 0, positionChange := 0
    previousPosition := 0 }

/-- Rows strictly above the tied pair. -/
def c5tiePrefix : List StoreRankingItem :=
  [c5row "A00" 1300, c5row "A01" 1250, c5row "A02" 1200, c5row "A03" 1150,
   c5row "A04" 1100]

/-- Rows strictly below the tied pair. -/
def c5tieSuffix : List StoreRankingItem :=
  [c5row "A07" 700, c5row "A08" 650, c5row "A09" 600, c5row "A10" 550,
   c5row "A11" 500, c5row "A12" 450]

/-- The earlier of the two equal-revenue rows. -/
def c5tieX : StoreRankingItem := c5row "A05" 800

/-- The later of the two equal-revenue rows. -/
def c5tieY : StoreRankingItem := c5row "A06" 800

/-- A 13-row run input with two equal-revenue rows, A05 before A06. -/
def c5tieInput : List StoreRankingItem :=
  c5tiePrefix ++ c5tieX :: c5tieY :: c5tieSuffix

/-- A `sort.Slice`-compliant ordering of `c5tieInput` with the tied pair
swapped. -/
def c5tieSorted : List StoreRankingItem :=
  c5tiePrefix ++ c5tieY :: c5tieX :: c5tieSuffix

/-- C5 counterexample: ties are not broken by stable input order.
`c5tieSorted` is a permutation of the 13-row `c5tieInput` that is
descending under the comparator, so it satisfies everything the program's
`sort.Slice` call specifies: the sort is documented as not guaranteed to be
stable, the input is longer than the 12-row regime in which the current
implementation happens to run a stable insertion sort, and nothing in the
program bounds the account list. The run output it produces lists the
equal-revenue accounts as A06, A05 — the reverse of their input order — so
the claimed tie-stability fails on an admissible run. -/
theorem updatePositions_tie_order_not_stable :
    updatePositionsRel c5tieInput [] (assignPositions [] 0 c5tieSorted)
    ∧ ((assignPositions [] 0 c5tieSorted).filter
          (fun y => decide (y.socialNetworkRevenue = 800))).map (fun r => r.accountID)
        ≠ (c5tieInput.filter
          (fun y => decide (y.socialNetworkRevenue = 800))).map (fun r => r.accountID) := by
  constructor
  · refine ⟨c5tieSorted, ⟨?_, by decide⟩, rfl⟩
    exact List.Perm.append_left c5tiePrefix (List.Perm.swap c5tieX c5tieY c5tieSuffix)
  · decide

/-- Row 1 of the distinct-revenue example. -/
def c5r1 : StoreRankingItem := buildRankingRow "01-2024" ⟨"ACC001", "Loja A"⟩ 3000

/-- Row 2 of the distinct-revenue example. -/
def c5r2 : StoreRankingItem := buildRankingRow "01-2024" ⟨"ACC002", "Loja B"⟩ 2500

/-- Row 3 of the distinct-revenue example. -/
def c5r3 : StoreRankingItem := buildRankingRow "01-2024" ⟨"ACC003", "Loja C"⟩ 1500

/-- The distinct-revenue example input: revenues 3000, 2500, 1500, no prior
ranking. -/
def c5exampleInput : List StoreRankingItem := [c5r1, c5r2, c5r3]

/-- The unique admissible output of the distinct-revenue example. -/
def c5expected : List StoreRankingItem :=
  [{ accountID := "ACC001", month := "01-2024", storeName := "Loja A"
     socialNetworkRevenue := 3000, position := 1, positionChange := 0
     previousPosition := 0 },
   { accountID := "ACC002", month := "01-2024", storeName := "Loja B"
     socialNetworkRevenue := 2500, position := 2, positionChange := 0
     previousPosition := 0 },
   { accountID := "ACC003", month := "01-2024", storeName := "Loja C"
     socialNetworkRevenue := 1500, position := 3, positionChange := 0
     previousPosition := 0 }]

/-- C5 (amended): for every ordering admitted by the `sort.Slice` contract,
the output of `updatePositions` is a contiguous 1..N ranking: positions are
exactly 1, 2, ..., N in output order, revenues are pairwise descending and
the account multiset is preserved — while the tie order among equal-revenue
rows is unspecified. For the distinct-revenue input [3000, 2500, 1500] with
no prior ranking, every admissible output is the expected ranking with
positions 1, 2, 3 in that order and zero deltas. -/
theorem updatePositionsRel_contiguous :
    (∀ (l : List StoreRankingItem) (before : List (String × StoreRankingItem))
        (out : List StoreRankingItem), updatePositionsRel l before out →
      out.map (fun r => r.position) = (List.range' 1 l.length).map (fun n => (n : Int))
      ∧ out.Pairwise revGE
      ∧ (out.map (fun r => r.accountID)).Perm (l.map (fun r => r.accountID)))
    ∧ (∀ out, updatePositionsRel c5exampleInput [] out → out = c5expected) := by
  constructor
  · rintro l before out ⟨s, ⟨hperm, hpair⟩, rfl⟩
    refine ⟨?_, ?_, ?_⟩
    · rw [assignPositions_map_position before s 0, hperm.length_eq]
    · exact assignPositions_pairwise before s 0 hpair
    · rw [assignPositions_map_accountID before s 0]
      exact hperm.map (fun r => r.accountID)
  · rintro out ⟨s, ⟨hperm, hpair⟩, rfl⟩
    have hmem : s ∈ List.permutations' c5exampleInput :=
      List.mem_permutations'.mpr hperm
    have hps : List.permutations' c5exampleInput
        = [[c5r1, c5r2, c5r3], [c5r2, c5r1, c5r3], [c5r2, c5r3, c5r1],
           [c5r1, c5r3, c5r2], [c5r3, c5r1, c5r2], [c5r3, c5r2, c5r1]] := by
      decide
    rw [hps] at hmem
    simp only [List.mem_cons, List.not_mem_nil, or_false] at hmem
    rcases hmem with rfl | rfl | rfl | rfl | rfl | rfl
    · decide
    · exact absurd hpair (by decide)
    · exact absurd hpair (by decide)
    · exact absurd hpair (by decide)
    · exact absurd hpair (by decide)
    · exact absurd hpair (by decide)

/-- Witness for the amended C5: the stable admissible ordering of the
distinct-revenue example is a compliant run, and the theorem forces its
output to be the expected 1, 2, 3 ranking. -/
theorem updatePositionsRel_contiguous_witness :
    updatePositionsRel c5exampleInput [] (assignPositions [] 0 c5exampleInput)
    ∧ assignPositions [] 0 c5exampleInput = c5expected :=
  have hrel : updatePositionsRel c5exampleInput [] (assignPositions [] 0 c5exampleInput) :=
    ⟨c5exampleInput, ⟨List.Perm.refl c5exampleInput, by decide⟩, rfl⟩
  ⟨hrel, updatePositionsRel_contiguous.2 (assignPositions [] 0 c5exampleInput) hrel⟩

/-- The eligible accounts of the C4 position-change scenario. -/
def c4accounts : List AdAccountRef := [⟨"ACC001", "Loja A"⟩, ⟨"ACC002", "Loja B"⟩]

/-- The month-to-date sales of the C4 scenario: the former runner-up now
out-earns the former leader. -/
def c4sales : String → List Order := fun id =>
  if id = "ACC001" then [{ netAmount := 1500, customerOrigins := ["Redes Sociais"] }]
  else [{ netAmount := 200, customerOrigins := ["Redes Sociais"] }]

/-- The previously persisted row of ACC001 (position 2). -/
def c4priorRowA : StoreRankingItem :=
  { accountID := "ACC001", month := "01-2024", storeName := "Loja A"
    socialNetworkRevenue := 2000, position := 2, positionChange := 0
    previousPosition := 0 }

/-- The previously persisted row of ACC002 (position 1). -/
def c4priorRowB : StoreRankingItem :=
  { accountID := "ACC002", month := "01-2024", storeName := "Loja B"
    socialNetworkRevenue := 3000, position := 1, positionChange := 0
    previousPosition := 0 }

/-- The prior-ranking map of the C4 scenario. -/
def c4prior : List (String × StoreRankingItem) :=
  [("ACC001", c4priorRowA), ("ACC002", c4priorRowB)]

/-- The expected output row of the riser ACC001. -/
def c4rowA : StoreRankingItem :=
  { accountID := "ACC001", month := "01-2024", storeName := "Loja A"
    socialNetworkRevenue := 1500, position := 1, positionChange := 1
    previousPosition := 2 }

/-- The expected output row of the displaced ACC002. -/
def c4rowB : StoreRankingItem :=
  { accountID := "ACC002", month := "01-2024", storeName := "Loja B"
    socialNetworkRevenue := 200, position := 2, positionChange := -1
    previousPosition := 1 }

/-- The concrete C4 scenario evaluates to the riser/displaced pair: ACC001
(previously position 2, now 1500 of social revenue) overtakes ACC002
(previously position 1, now 200). -/
theorem processTopRanking_example :
    processTopRankingWithDate c4accounts c4sales c4prior "01-2024" = [c4rowA, c4rowB] := by
  have hc1 : socialNetworkSale { netAmount := 1500, customerOrigins := ["Redes Sociais"] }
      = true := by decide
  have hc2 : socialNetworkSale { netAmount := 200, customerOrigins := ["Redes Sociais"] }
      = true := by decide
  have h1 : getSumNetAmountSocialNetwork (c4sales "ACC001") = 1500 := by
    simp [c4sales, getSumNetAmountSocialNetwork, hc1]
  have h2 : getSumNetAmountSocialNetwork (c4sales "ACC002") = 200 := by
    simp [c4sales, getSumNetAmountSocialNetwork, hc2]
  have hrows : c4accounts.map
      (fun a => buildRankingRow "01-2024" a (getSumNetAmountSocialNetwork (c4sales a.id)))
      = [buildRankingRow "01-2024" ⟨"ACC001", "Loja A"⟩ 1500,
         buildRankingRow "01-2024" ⟨"ACC002", "Loja B"⟩ 200] := by
    simp [c4accounts, h1, h2]
  simp only [processTopRankingWithDate]
  rw [hrows]
  decide

/-- C4: in a ranking run, a row whose account has a previously persisted row
for the month gets `positionChange = priorPosition - newPosition` and
`previousPosition = priorPosition`; a new entrant keeps both at 0; and in
the concrete scenario where the account previously at position 2 now
out-earns the prior leader, the riser gets +1 with previousPosition 2 and
the displaced leader gets -1 with previousPosition 1. -/
theorem processTopRanking_position_deltas :
    (∀ (accounts : List AdAccountRef) (salesOf : String → List Order)
        (priorOf : List (String × StoreRankingItem)) (month : String)
        (r : StoreRankingItem),
      r ∈ processTopRankingWithDate accounts salesOf priorOf month →
      (∀ b, priorOf.lookup r.accountID = some b →
          r.positionChange = b.position - r.position ∧ r.previousPosition = b.position)
      ∧ (priorOf.lookup r.accountID = none →
          r.positionChange = 0 ∧ r.previousPosition = 0))
    ∧ processTopRankingWithDate c4accounts c4sales c4prior "01-2024"
        = [c4rowA, c4rowB] := by
  refine ⟨?_, processTopRanking_example⟩
  intro accounts salesOf priorOf month r hr
  simp only [processTopRankingWithDate, updatePositions] at hr
  rcases mem_assignPositions priorOf 0 _ r hr with ⟨j, r0, hr0, rfl⟩
  have hr0m : r0 ∈ accounts.map
      (fun a => buildRankingRow month a (getSumNetAmountSocialNetwork (salesOf a.id))) :=
    (List.mem_insertionSort revGE).mp hr0
  rcases List.mem_map.mp hr0m with ⟨a, _, rfl⟩
  constructor
  · intro b hb
    rw [updateRow_accountID] at hb
    simp only [buildRankingRow] at hb
    simp [updateRow, buildRankingRow, hb]
  · intro hnone
    rw [updateRow_accountID] at hnone
    simp only [buildRankingRow] at hnone
    simp [updateRow, buildRankingRow, hnone]

/-- Witness for C4: the delta formula evaluated on the riser row of the
concrete scenario (its prior row is at position 2), together with the full
expected run output. -/
theorem processTopRanking_position_deltas_witness :
    (c4rowA.positionChange = c4priorRowA.position - c4rowA.position
      ∧ c4rowA.previousPosition = c4priorRowA.position)
    ∧ processTopRankingWithDate c4accounts c4sales c4prior "01-2024"
        = [c4rowA, c4rowB] :=
  ⟨(processTopRanking_position_deltas.1 c4accounts c4sales c4prior "01-2024" c4rowA
      (by rw [processTopRanking_position_deltas.2]; decide)).1
      c4priorRowA (by decide),
    processTopRanking_position_deltas.2⟩

/-! ## Token lifecycle (metaclient TokenManager)

`GetLongLivedToken` is the upstream token-exchange HTTP call; its outcome is
an input of the model (`Except`: an error message or a token response). Each
execution of `refreshTokenInternal` performs exactly one such call, counted
in `exchangeCalls`. -/

/-- Models `metaclient.TokenResponse`. -/
structure TokenResponse where
  accessToken : String
  expiresIn : Int
deriving DecidableEq

/-- The token-related configuration state (`cfg.Meta`): access token,
long-lived token, and the stored expiry instant (0 models the `time.Time`
zero value). -/
structure MetaTokenState where
  accessToken : String
  longLivedToken : String
  tokenExpiresAt : Int
deriving DecidableEq

/-- Models `CalculateTokenExpiration`: expiry = now + (expiresIn − 1 day),
or now + expiresIn/2 when that buffer would go negative. -/
def calculateTokenExpiration (now expiresIn : Int) : Int :=
  let buffer : Int := 24 * 60 * 60
  let safe := expiresIn - buffer
  if safe < 0 then now + expiresIn / 2 else now + safe

/-- The observable outcome of one token operation: the new configuration
state, the number of `GetLongLivedToken` calls performed, and the returned
error (`none` = nil). -/
structure RefreshOutcome where
  state : MetaTokenState
  exchangeCalls : Nat
  err : Option String
deriving DecidableEq

/-- Models `strings.Contains` for a non-empty pattern. -/
def goStringContains (s sub : String) : Bool := (s.splitOn sub).length != 1

/-- Models `containsTokenExpirationMessage`. -/
def containsTokenExpirationMessage (msg : String) : Bool :=
  goStringContains msg "Error validating access token" ||
  goStringContains msg "Session has expired" ||
  goStringContains msg "The session has been invalidated"

/-- Models `refreshTokenInternal` (part_007 201-254): under the mutex it
unconditionally performs one `GetLongLivedToken` exchange (the near-expiry
check only logs a warning); an upstream session-invalidated signal yields
the manual-reauthorization error, any other error is wrapped, and on
success the long-lived token, its expiry and the access token are
updated. -/
def refreshTokenInternal (st : MetaTokenState) (now : Int)
    (exchange : Except String TokenResponse) : RefreshOutcome :=
  match exchange with
  | .error msg =>
    if containsTokenExpirationMessage msg then
      { state := st, exchangeCalls := 1
        err := some ("o token de acesso expirou e não pode ser renovado automaticamente. "
          ++ "É necessário reautorizar: " ++ msg) }
    else
      { state := st, exchangeCalls := 1
        err := some ("erro ao obter novo token de longa duração: " ++ msg) }
  | .ok tr =>
    { state :=
        { accessToken := tr.accessToken, longLivedToken := tr.accessToken
          tokenExpiresAt := calculateTokenExpiration now tr.expiresIn }
      exchangeCalls := 1
      err := none }

/-- Models `InitiateToken`: under the mutex, skip if another goroutine
already installed a long-lived token; otherwise perform one exchange. -/
def initiateToken (st : MetaTokenState) (now : Int)
    (exchange : Except String TokenResponse) : RefreshOutcome :=
  if st.longLivedToken ≠ "" then { state := st, exchangeCalls := 0, err := none }
  else
    match exchange with
    | .error msg =>
      { state := st, exchangeCalls := 1
        err := some ("erro ao obter token de longa duração: " ++ msg) }
    | .ok tr =>
      { state :=
          { accessToken := tr.accessToken, longLivedToken := tr.accessToken
            tokenExpiresAt := calculateTokenExpiration now tr.expiresIn }
        exchangeCalls := 1
        err := none }

/-- Models `EnsureValidToken` (part_007 257-272): initialize when the access
token is empty; refresh when `time.Until(TokenExpiresAt) < 24h`; otherwise
do nothing and return nil. -/
def ensureValidToken (st : MetaTokenState) (now : Int)
    (exchange : Except String TokenResponse) : RefreshOutcome :=
  if st.accessToken = "" then initiateToken st now exchange
  else if st.tokenExpiresAt - now < 24 * 60 * 60 then refreshTokenInternal st now exchange
  else { state := st, exchangeCalls := 0, err := none }

/-- Every execution of `refreshTokenInternal` performs exactly one
exchange. -/
theorem refreshTokenInternal_calls (st : MetaTokenState) (now : Int)
    (exchange : Except String TokenResponse) :
    (refreshTokenInternal st now exchange).exchangeCalls = 1 := by
  cases exchange with
  | error msg =>
    by_cases hmsg : containsTokenExpirationMessage msg = true <;>
      simp [refreshTokenInternal, hmsg]
  | ok tr => rfl

/-- C7: for a non-empty access token, `EnsureValidToken` performs zero
network calls and returns nil when the remaining validity is at least 24
hours, and performs exactly one token-exchange call otherwise. -/
theorem ensureValidToken_calls (st : MetaTokenState) (now : Int)
    (exchange : Except String TokenResponse) (h : ¬ st.accessToken = "") :
    (24 * 60 * 60 ≤ st.tokenExpiresAt - now →
      ensureValidToken st now exchange = { state := st, exchangeCalls := 0, err := none })
    ∧ (st.tokenExpiresAt - now < 24 * 60 * 60 →
      (ensureValidToken st now exchange).exchangeCalls = 1) := by
  constructor
  · intro hge
    have hnlt : ¬ (st.tokenExpiresAt - now < 24 * 60 * 60) := not_lt.mpr hge
    unfold ensureValidToken
    rw [if_neg h, if_neg hnlt]
  · intro hlt
    unfold ensureValidToken
    rw [if_neg h, if_pos hlt]
    exact refreshTokenInternal_calls st now exchange

/-- The configuration state used by the C7 witness: expiry at second
86400. -/
def c7state : MetaTokenState :=
  { accessToken := "tok", longLivedToken := "tok", tokenExpiresAt := 86400 }

/-- The exchange outcome used by the C7 witness. -/
def c7exchange : Except String TokenResponse :=
  .ok { accessToken := "t2", expiresIn := 5184000 }

/-- Witness for C7: a check at second 0 (exactly 24h left) performs no call
and returns the state unchanged with a nil error, while a check at second
100000 (past expiry) performs exactly one exchange. -/
theorem ensureValidToken_calls_witness :
    ensureValidToken c7state 0 c7exchange
      = { state := c7state, exchangeCalls := 0, err := none }
    ∧ (ensureValidToken c7state 100000 c7exchange).exchangeCalls = 1 :=
  ⟨(ensureValidToken_calls c7state 0 c7exchange (by decide)).1 (by decide),
   (ensureValidToken_calls c7state 100000 c7exchange (by decide)).2 (by decide)⟩

/-- Models N concurrent `RefreshToken` calls: `TokenRefreshMutex` serializes
their bodies in some acquisition order, and each body runs
`refreshTokenInternal` unconditionally — unlike `InitiateToken`, there is no
under-lock re-check that would let a later caller skip its exchange. The
list holds one exchange outcome per caller, in acquisition order; the
returned number is the total count of `GetLongLivedToken` calls. -/
def serializedRefreshes (now : Int) :
    MetaTokenState → List (Except String TokenResponse) → MetaTokenState × Nat
  | st, [] => (st, 0)
  | st, ex :: rest =>
    ((serializedRefreshes now (refreshTokenInternal st now ex).state rest).1,
      (refreshTokenInternal st now ex).exchangeCalls
        + (serializedRefreshes now (refreshTokenInternal st now ex).state rest).2)

/-- C2 counterexample: two concurrent `RefreshToken` calls perform two
upstream `GetLongLivedToken` exchanges, not one — the mutex serializes the
callers but does not coalesce them. -/
theorem refreshToken_not_single_flight :
    (serializedRefreshes 1000
        { accessToken := "tok", longLivedToken := "tok", tokenExpiresAt := 2000 }
        [.ok { accessToken := "t1", expiresIn := 5184000 },
         .ok { accessToken := "t2", expiresIn := 5184000 }]).2 = 2
    ∧ (serializedRefreshes 1000
        { accessToken := "tok", longLivedToken := "tok", tokenExpiresAt := 2000 }
        [.ok { accessToken := "t1", expiresIn := 5184000 },
         .ok { accessToken := "t2", expiresIn := 5184000 }]).2 ≠ 1 := by
  constructor
  · rfl
  · decide

/-- C2 (amended): N concurrent `RefreshToken` calls, serialized by the
mutex, perform exactly N upstream token-exchange calls — one per caller,
regardless of the outcomes. -/
theorem refreshToken_serialized_calls (now : Int) :
    ∀ (exs : List (Except String TokenResponse)) (st : MetaTokenState),
      (serializedRefreshes now st exs).2 = exs.length := by
  intro exs
  induction exs with
  | nil => intro st; rfl
  | cons ex rest ih =>
    intro st
    show (refreshTokenInternal st now ex).exchangeCalls
        + (serializedRefreshes now (refreshTokenInternal st now ex).state rest).2
      = rest.length + 1
    rw [refreshTokenInternal_calls, ih]
    exact Nat.add_comm 1 rest.length

/-! ## Sync run state (scheduler jobs)

The three sync jobs guard a run with `syncMutex` and a `syncRunning` flag,
but differently: `syncAllMetaInsights` (part_019 110-127) and
`syncMonthlyInsights` check-and-set the flag in a short critical section,
run the pass with the mutex released, and clear the flag in a second
critical section — so a trigger whose guard observes an active run returns
without doing anything. `UpdateTopRankingAccounts`
(top_ranking_accounts.go 97-127) instead holds `syncMutex` for its whole
body (`defer s.syncMutex.Unlock()`), with the flag set inside and cleared
before release: its entire run is one critical section, the `syncRunning`
guard can never observe `true` (the flag is only true while the mutex is
held), and a trigger issued during an active run blocks on the mutex and
then executes a full additional pass. The model captures each critical
section as one atomic step on the shared state; `passes` counts executions
of the account-list pass. -/

/-- The shared sync-run state: the `syncRunning` flag, plus a count of
completed account-list passes (the observable work). -/
structure SyncState where
  running : Bool
  passes : Nat
deriving DecidableEq

/-- The quiescent scheduler state. -/
def initialSyncState : SyncState := { running := false, passes := 0 }

/-- The guard section of `syncAllMetaInsights`: under the mutex, return
false (drop) if a run is active, else set the flag. -/
def metaTryStart (s : SyncState) : SyncState × Bool :=
  if s.running then (s, false) else ({ s with running := true }, true)

/-- The account-list pass of the meta job (runs with the mutex released). -/
def metaRunPass (s : SyncState) : SyncState := { s with passes := s.passes + 1 }

/-- The deferred section of `syncAllMetaInsights`: clear the flag under the
mutex. -/
def metaFinish (s : SyncState) : SyncState := { s with running := false }

/-- A trigger whose guard observes an active run: it only executes its guard
section and returns. -/
def metaDroppedAttempt (s : SyncState) : SyncState := (metaTryStart s).1

/-- `k` triggers arriving one after another. -/
def iterateAttempts : Nat → SyncState → SyncState
  | 0, s => s
  | k + 1, s => iterateAttempts k (metaDroppedAttempt s)

/-- A full meta-job schedule: one trigger starts a run, `k` further triggers
have their guard sections serialized while the flag is set, then the run
performs its pass and finishes. (The extra triggers never touch `passes`,
so placing the pass after their guard sections loses no generality.) -/
def metaScenario (k : Nat) (s : SyncState) : SyncState :=
  metaFinish (metaRunPass (iterateAttempts k (metaTryStart s).1))

/-- One execution of `UpdateTopRankingAccounts`: the whole body is a single
critical section — check the flag (necessarily false at entry, since the
flag is only ever true while this same mutex is held), set it, run the full
account-list pass, clear the flag. -/
def updateTopRankingRun (s : SyncState) : SyncState :=
  if s.running then s else { running := false, passes := s.passes + 1 }

/-- C3 counterexample: for the top-ranking job, a trigger issued while a
run is active blocks on the run-long `syncMutex` and executes a full second
pass after the first completes. Starting idle, two triggers — the second
arriving mid-run — yield two passes over the account list, so the second
trigger was neither dropped nor free of an additional pass. -/
theorem topRanking_trigger_not_dropped :
    updateTopRankingRun (updateTopRankingRun initialSyncState)
      = { running := false, passes := 2 }
    ∧ (updateTopRankingRun (updateTopRankingRun initialSyncState)).passes ≠ 1 := by
  exact ⟨rfl, by decide⟩

/-- C3 (amended): for the meta-insight (and monthly) sync jobs, whose
running-flag guard is its own short critical section, a trigger observing
an active run is a no-op and any number of triggers arriving during one
active run still yield exactly one pass; for the top-ranking job, whose
whole run holds the sync mutex, a trigger executes one full pass as soon as
it acquires the mutex — triggers are serialized, not dropped. -/
theorem sync_trigger_semantics :
    (∀ s : SyncState, s.running = true → metaTryStart s = (s, false))
    ∧ (∀ k : Nat, metaScenario k initialSyncState = { running := false, passes := 1 })
    ∧ (∀ s : SyncState, s.running = false →
        updateTopRankingRun s = { running := false, passes := s.passes + 1 }) := by
  refine ⟨?_, ?_, ?_⟩
  · intro s h
    simp [metaTryStart, h]
  · intro k
    have hiter : ∀ (n : Nat) (p : Nat),
        iterateAttempts n { running := true, passes := p }
          = { running := true, passes := p } := by
      intro n
      induction n with
      | zero => intro p; rfl
      | succ n ih =>
        intro p
        show iterateAttempts n (metaDroppedAttempt { running := true, passes := p }) = _
        have hd : metaDroppedAttempt { running := true, passes := p }
            = { running := true, passes := p } := by
          simp [metaDroppedAttempt, metaTryStart]
        rw [hd]
        exact ih p
    show metaFinish (metaRunPass (iterateAttempts k (metaTryStart initialSyncState).1)) = _
    have hstart : (metaTryStart initialSyncState).1 = { running := true, passes := 0 } := rfl
    rw [hstart, hiter k 0]
    rfl
  · intro s h
    simp [updateTopRankingRun, h]

/-- Witness for the amended C3: a guard observing an active run drops (state
unchanged, no pass); three triggers during an active meta run still yield
one pass; a top-ranking trigger that acquires the mutex after one completed
pass performs a second one. -/
theorem sync_trigger_semantics_witness :
    metaTryStart { running := true, passes := 0 }
        = ({ running := true, passes := 0 }, false)
    ∧ metaScenario 3 initialSyncState = { running := false, passes := 1 }
    ∧ updateTopRankingRun { running := false, passes := 1 }
        = { running := false, passes := 2 } :=
  ⟨sync_trigger_semantics.1 { running := true, passes := 0 } rfl,
   sync_trigger_semantics.2.1 3,
   sync_trigger_semantics.2.2 { running := false, passes := 1 } rfl⟩

/-! ## combineSalesMetrics and result metrics (interfaces.go 750-817,
part_016 CalculateResultMetrics) -/

/-- Models `originAggregator`. -/
structure OriginAgg where
  totalRevenue : ℚ
  salesQuantity : Int
  sales : List SaleEntry
deriving DecidableEq

/-- Accumulate one origin's metrics into the per-origin aggregators
(association list in first-seen order; Go map iteration order is
irrelevant to the sums). -/
def addOriginMetrics : List (String × OriginAgg) → String → SalesMetricsVal →
    List (String × OriginAgg)
  | [], origin, m =>
    [(origin, { totalRevenue := m.totalRevenue, salesQuantity := m.salesQuantity
                sales := m.sales })]
  | (o, agg) :: rest, origin, m =>
    if o = origin then
      (o, { totalRevenue := agg.totalRevenue + m.totalRevenue
            salesQuantity := agg.salesQuantity + m.salesQuantity
            sales := agg.sales ++ m.sales }) :: rest
    else (o, agg) :: addOriginMetrics rest origin m

/-- Accumulate all origins of one sales record. -/
def accumSalesEntry (acc : List (String × OriginAgg)) (e : SalesInsightEntry) :
    List (String × OriginAgg) :=
  e.salesMetrics.foldl (fun acc2 om => addOriginMetrics acc2 om.1 om.2) acc

/-- Models `processOriginSalesMetrics`: average ticket guarded by a zero
quantity, monetary outputs rounded to 2 decimals. -/
def processOriginSalesMetrics (agg : OriginAgg) : SalesMetricsVal :=
  let averageTicket :=
    if 0 < agg.salesQuantity then agg.totalRevenue / (agg.salesQuantity : ℚ) else 0
  { totalRevenue := round2 agg.totalRevenue, salesQuantity := agg.salesQuantity
    averageTicket := round2 averageTicket, sales := agg.sales }

/-- Models `combineSalesMetrics`: nil for an empty input, otherwise the
per-origin aggregation finalized by `processOriginSalesMetrics`. -/
def combineSalesMetrics (salesInsights : List SalesInsightEntry) :
    Option (List (String × SalesMetricsVal)) :=
  match salesInsights with
  | [] => none
  | _ =>
    some ((salesInsights.foldl accumSalesEntry []).map
      (fun p => (p.1, processOriginSalesMetrics p.2)))

/-- Go `int(f)` on a float: truncation toward zero. -/
def goTruncQ (q : ℚ) : Int := if q < 0 then -⌊-q⌋ else ⌊q⌋

/-- The origin key `domain.SocialNetwork`. -/
def SocialNetworkKey : String := "SocialNetwork"

/-- Models `domain.ResultMetrics`. -/
structure ResultMetricsModel where
  conversion : ℚ
  roi : String
deriving DecidableEq

/-- Models `CalculateResultMetrics`: nil unless the social-network origin is
present; conversion% = salesQuantity/adResult*100 (guarding zero), ROI =
revenue/spend rendered as a truncated integer multiplier. -/
def calculateResultMetrics (ad : AdAccountMetrics)
    (sales : List (String × SalesMetricsVal)) : Option ResultMetricsModel :=
  match sales.lookup SocialNetworkKey with
  | none => none
  | some sm =>
    let conversion :=
      if 0 < ad.result then ((sm.salesQuantity : ℚ) / (ad.result : ℚ)) * 100 else 0
    let roi := if 0 < ad.spend then sm.totalRevenue / ad.spend else 0
    some { conversion := round2 conversion, roi := toString (goTruncQ roi) ++ "x" }

/-! ## GetAdAccountsByID / GetAdAccountReachImpressions
(interfaces.go 110-227, 504-573, 1099-1129)

The repository and API collaborators are inputs of the model (`InsightEnv`);
every collaborator call the service performs is recorded, in program order,
in an effect trace (the ad and sales goroutines of the cache path run
concurrently, so their sub-traces interleave in reality; the model lists the
ad effects before the sales effects, which is irrelevant to the emptiness
properties proved here). -/

/-- Models `domain.AdAccount` (the fields this path reads). -/
structure AdAccountModel where
  id : String
  name : String
  cnpj : Option String
  secretName : Option String
deriving DecidableEq

/-- Models `domain.InsigthFilters`. -/
structure InsightFilters where
  startDate : Option Nat
  endDate : Option Nat
deriving DecidableEq

/-- Models `domain.ReachImpressionsResponse`. -/
structure ReachImpressions where
  reach : Int
  impressions : Int
deriving DecidableEq

/-- One observable collaborator call. -/
inductive InsightEffect where
  | accountLookup (externalID : String)
  | adRangeQuery (accountID : String)
  | adApiFetch (d : Nat)
  | adSave (e : AdInsightEntry)
  | salesRangeQuery (accountID : String)
  | salesApiFetch (d : Nat)
  | salesSave (e : SalesInsightEntry)
  | adApiRangeFetch (f : InsightFilters)
  | salesApiRangeFetch (f : InsightFilters)
  | reachApiCall (accountID : String)
deriving DecidableEq

/-- Models the final `domain.AdAccountInsightsResponse`. -/
structure InsightsResponse where
  filters : Option InsightFilters
  adAccountMetrics : Option AdAccountMetrics
  salesMetrics : Option (List (String × SalesMetricsVal))
  resultMetrics : Option ResultMetricsModel

/-- The collaborators' behaviour for one request: the account-repository
lookup outcome, the cached ranges, the per-date and whole-range API
outcomes, the reach/impressions outcome, and the service's cache flag. -/
structure InsightEnv where
  account : Except String (Option AdAccountModel)
  adCached : List AdInsightEntry
  salesCached : List SalesInsightEntry
  fetchAd : Nat → Option AdMetrics
  fetchSales : Nat → Option (List (String × SalesMetricsVal))
  fetchAdRange : Option AdMetrics
  fetchSalesRange : Option (List (String × SalesMetricsVal))
  reachResult : Except String ReachImpressions
  useCache : Bool
  now : Nat

/-- The cache path's eligibility guard for the sales goroutine: non-nil and
non-empty CNPJ and secret name. -/
def hasSalesCreds (acc : AdAccountModel) : Bool :=
  presentStr acc.cnpj && presentStr acc.secretName

/-- The whole-range payload viewed as a response `AdAccountMetrics` (the
non-cache path stores the API result directly; its by-date maps are
unpopulated). -/
def adMetricsAsAccount (accountID : String) (m : AdMetrics) : AdAccountMetrics :=
  { accountID := accountID, name := m.name, objective := m.objective
    campaigns := m.campaigns, costPerResult := m.costPerResult
    frequency := m.frequency, impressions := m.impressions, reach := m.reach
    result := m.result, spend := m.spend
    costPerResultByDate := fun _ => 0, resultByDate := fun _ => 0 }

/-- Models `GetAdAccountsByIDWithCache`: reject an empty generated range,
run the ad and sales cache fills (the sales one only when the account has
usable credentials), combine each side when non-empty, and compute the
result metrics when both sides and the social-network origin exist. -/
def getAdAccountsByIDWithCache (env : InsightEnv) (account : AdAccountModel)
    (accountExternalID : String) (f : InsightFilters) :
    Except String InsightsResponse × List InsightEffect :=
  let allDates := generateDateRange f.startDate f.endDate
  if allDates.isEmpty then (.error "período de datas inválido", [])
  else
    let ad := getAdMetricsWithCache account.id accountExternalID env.adCached
      env.fetchAd allDates env.now
    let salesRun := hasSalesCreds account
    let sales := getSalesMetricsWithCache account.id account.cnpj account.secretName
      env.salesCached env.fetchSales allDates env.now
    let adM := if ad.result.isEmpty then none else combineAdMetrics ad.result
    let salesM :=
      if salesRun then
        (if sales.result.isEmpty then none else combineSalesMetrics sales.result)
      else none
    let resultM :=
      match adM, salesM with
      | some a, some sm => calculateResultMetrics a sm
      | _, _ => none
    (.ok { filters := some f, adAccountMetrics := adM, salesMetrics := salesM
           resultMetrics := resultM },
      [InsightEffect.adRangeQuery account.id]
        ++ ad.fetched.map InsightEffect.adApiFetch
        ++ ad.saved.map InsightEffect.adSave
        ++ (if salesRun then
              [InsightEffect.salesRangeQuery account.id]
                ++ sales.fetched.map InsightEffect.salesApiFetch
                ++ sales.saved.map InsightEffect.salesSave
            else []))

/-- Models `GetAdAccountsByIDWithoutCache`: one whole-range Meta call, plus
one whole-range SSOtica call when the CNPJ and secret pointers are non-nil
(this path checks only non-nil, not non-empty); errors are logged and leave
the corresponding side nil. -/
def getAdAccountsByIDWithoutCache (env : InsightEnv) (account : AdAccountModel)
    (accountExternalID : String) (f : InsightFilters) :
    Except String InsightsResponse × List InsightEffect :=
  let salesPtrs := account.cnpj.isSome && account.secretName.isSome
  let adM := env.fetchAdRange.map (adMetricsAsAccount accountExternalID)
  let salesM :=
    if salesPtrs then
      match env.fetchSalesRange with
      | none => none
      | some ms => if ms.isEmpty then none else some ms
    else none
  let resultM :=
    match adM, salesM with
    | some a, some sm => calculateResultMetrics a sm
    | _, _ => none
  (.ok { filters := some f, adAccountMetrics := adM, salesMetrics := salesM
         resultMetrics := resultM },
    [InsightEffect.adApiRangeFetch f]
      ++ (if salesPtrs then [InsightEffect.salesApiRangeFetch f] else []))

/-- Models `GetAdAccountsByID`: nil-filter and date-order validation first
(synchronously, before any collaborator call), then the account lookup, then
the cache or non-cache path. -/
def getAdAccountsByID (env : InsightEnv) (accountID : String)
    (filters : Option InsightFilters) :
    Except String InsightsResponse × List InsightEffect :=
  match filters with
  | none => (.error "é necessário informar as datas de início e fim", [])
  | some f =>
    match f.startDate, f.endDate with
    | none, _ => (.error "é necessário informar as datas de início e fim", [])
    | some _, none => (.error "é necessário informar as datas de início e fim", [])
    | some sd, some ed =>
      if ed < sd then
        (.error "a data de início não pode ser posterior à data de fim", [])
      else
        match env.account with
        | .error _ => (.error "erro ao buscar conta", [.accountLookup accountID])
        | .ok none =>
          (.error ("conta não encontrada: " ++ accountID), [.accountLookup accountID])
        | .ok (some account) =>
          let r :=
            if env.useCache then getAdAccountsByIDWithCache env account accountID f
            else getAdAccountsByIDWithoutCache env account accountID f
          (r.1, .accountLookup accountID :: r.2)

/-- Models `GetAdAccountReachImpressions`: the same synchronous validation,
then a single Meta call. -/
def getAdAccountReachImpressions (env : InsightEnv) (accountID : String)
    (filters : Option InsightFilters) :
    Except String ReachImpressions × List InsightEffect :=
  match filters with
  | none => (.error "é necessário informar as datas de início e fim", [])
  | some f =>
    match f.startDate, f.endDate with
    | none, _ => (.error "é necessário informar as datas de início e fim", [])
    | some _, none => (.error "é necessário informar as datas de início e fim", [])
    | some sd, some ed =>
      if ed < sd then
        (.error "a data de início não pode ser posterior à data de fim", [])
      else
        match env.reachResult with
        | .error e => (.error e, [.reachApiCall accountID])
        | .ok m => (.ok m, [.reachApiCall accountID])

/-- C9: when the start date is after the end date, `GetAdAccountsByID` and
`GetAdAccountReachImpressions` fail fast and synchronously with the
validation error and an empty effect trace: no repository lookup, no
external fetch and no persistence happen. -/
theorem validation_fails_fast (env : InsightEnv) (accountID : String)
    (f : InsightFilters) (sd ed : Nat) (hs : f.startDate = some sd)
    (he : f.endDate = some ed) (hlt : ed < sd) :
    getAdAccountsByID env accountID (some f)
      = (.error "a data de início não pode ser posterior à data de fim", [])
    ∧ getAdAccountReachImpressions env accountID (some f)
      = (.error "a data de início não pode ser posterior à data de fim", []) := by
  constructor
  · simp [getAdAccountsByID, hs, he, hlt]
  · simp [getAdAccountReachImpressions, hs, he, hlt]

/-- The account returned by the repository in the C9 witness environment. -/
def c9account : AdAccountModel :=
  { id := "acc-1", name := "Store A", cnpj := some "123", secretName := some "secret" }

/-- A collaborator environment for the C9 witness. -/
def c9env : InsightEnv :=
  { account := .ok (some c9account)
    adCached := [], salesCached := [], fetchAd := fun _ => none
    fetchSales := fun _ => none, fetchAdRange := none, fetchSalesRange := none
    reachResult := .ok { reach := 0, impressions := 0 }
    useCache := true, now := 180000 }

/-- Witness for C9: a request whose start date (day 3) is after its end
date (day 2) fails with the validation error and performs no collaborator
call at all. -/
theorem validation_fails_fast_witness :
    getAdAccountsByID c9env "ext-1"
        (some { startDate := some 259200, endDate := some 172800 })
      = (.error "a data de início não pode ser posterior à data de fim", [])
    ∧ getAdAccountReachImpressions c9env "ext-1"
        (some { startDate := some 259200, endDate := some 172800 })
      = (.error "a data de início não pode ser posterior à data de fim", []) :=
  validation_fails_fast c9env "ext-1"
    { startDate := some 259200, endDate := some 172800 } 259200 172800 rfl rfl
    (by decide)

end TrafficManager

